import Mathlib

/-!
Verification development for the semshi scope-aware AST visitor
(src/semshi/visitor.py).

The embedding translates the Python source into executable Lean
definitions:

* the externally supplied symbol-table tree becomes `Table`
  (kind string, children, and a numeric identity used to record the
  single permitted `self_param` write in a side map, since Python
  mutates the table object in place);
* the Python `ast` nodes used by the visitor become the inductive
  `Ast`; fields that the visitor deletes with `del` are `Option`-valued
  and deletion sets them to `none` (the visitor reads fields through
  `node.__dict__.get(field, None)`, so a deleted field and a missing
  field are indistinguishable to it);
* the output record class `Node` (from the repository module
  `semshi/node.py`, which is not included under src/) is modelled from
  the spec, section 3;
* the mutually recursive visitor methods become the fields of the
  bundle `Visit`, built per recursion budget by `visitPack`, over an
  explicit state `St`; Python exceptions (IndexError from list
  indexing / pop, AttributeError from reading a deleted or absent
  field, StopIteration or IndexError inside the token scan) become
  `Except Err`;
* recursion is bounded by the budget (fuel); running out of fuel is
  the distinguished error `Err.fuel`, so an `.ok` result is a genuine
  terminating run of the source algorithm.

The Python version modelled is the 3.7-era `ast` module the source
imports (`NameConstant`, `Str`, `Num`), with its `_fields` orders.
Node kinds that no claim exercises (`DictComp`, `SetComp`,
`GeneratorExp`, `Str`, `NameConstant`, comparison operators, `keyword`)
are omitted; the source handles the comprehension kinds identically to
`ListComp`, and the constant kinds identically to `Num`.
-/

/-- Modelled from the spec: a node of the externally supplied scope
(symbol-table) tree, spec section 3 and the symtable objects the
source reads through `get_type` and `get_children`.  The numeric `tid`
models Python object identity; the single-write `self_param`
attachment point lives in the traversal state keyed by `tid`. -/
inductive Table where
  | mk (tid : Nat) (ttype : String) (children : List Table)

/-- Object identity of a scope node. -/
def Table.tid : Table → Nat
  | .mk i _ _ => i

/-- Source `table.get_type()`. -/
def Table.get_type : Table → String
  | .mk _ t _ => t

/-- Source `table.get_children()`. -/
def Table.get_children : Table → List Table
  | .mk _ _ c => c

/-- Modelled from the spec: the Occurrence record (class `Node` of the
repository module `semshi/node.py`, not included under src/), spec
section 3: name, 1-based line, 0-based column, scope-chain snapshot,
attribute flag, optional back-reference to another Occurrence.  The
visitor constructs it as `Node(name, lineno, col, env, is_attr, target)`
where `is_attr` defaults to a falsy value and `target` to `None`; the
env argument is `self._cur_env`, which is `None` before any block was
entered, hence the `Option` on `env`. -/
inductive PNode where
  | mk (name : String) (lineno : Nat) (col : Nat)
       (env : Option (List Table)) (is_attr : Bool) (target : Option PNode)

/-- Name field of an Occurrence. -/
def PNode.name : PNode → String
  | .mk n _ _ _ _ _ => n

/-- Line of an Occurrence. -/
def PNode.lineno : PNode → Nat
  | .mk _ l _ _ _ _ => l

/-- Column of an Occurrence. -/
def PNode.col : PNode → Nat
  | .mk _ _ c _ _ _ => c

/-- Scope chain snapshot of an Occurrence. -/
def PNode.env : PNode → Option (List Table)
  | .mk _ _ _ e _ _ => e

/-- Attribute flag of an Occurrence. -/
def PNode.is_attr : PNode → Bool
  | .mk _ _ _ _ a _ => a

/-- Back-reference of an Occurrence. -/
def PNode.target : PNode → Option PNode
  | .mk _ _ _ _ _ t => t

/-- The Python 3.7 `ast` node kinds the visitor dispatches on,
restricted to the kinds the claims exercise.  Fields the visitor
deletes (`del node.field`) are `Option`-valued; position fields are
modelled on the kinds whose positions the visitor reads.  `Load` and
`Store` stand for the expression-context marker kinds; `Num` for the
constant kinds.  `alias` carries the import name and optional asname;
`arguments` mirrors the 3.7 field order
(args, vararg, kwonlyargs, kw_defaults, kwarg, defaults). -/
inductive Ast where
  | Module (body : List Ast)
  | FunctionDef (lineno col : Nat) (fname : String) (args : Ast)
      (body : List Ast) (decorator_list : Option (List Ast)) (returns : Option Ast)
  | AsyncFunctionDef (lineno col : Nat) (fname : String) (args : Ast)
      (body : List Ast) (decorator_list : Option (List Ast)) (returns : Option Ast)
  | ClassDef (lineno col : Nat) (cname : String)
      (bases : Option (List Ast)) (keywords : Option (List Ast))
      (body : List Ast) (decorator_list : Option (List Ast))
  | Lambda (args : Ast) (body : Ast)
  | ListComp (elt : Ast) (generators : List Ast)
  | comprehension (target : Ast) (iter : Option Ast) (ifs : List Ast)
  | Name (lineno col : Nat) (id : String) (ctx : Ast) (self_target : Option PNode)
  | Attribute (value : Ast) (attr : String) (ctx : Ast)
  | Num (n : Int)
  | Store
  | Load
  | Try (body : Option (List Ast)) (handlers : List Ast)
      (orelse : Option (List Ast)) (finalbody : List Ast)
  | ExceptHandler (etype : Option Ast) (ename : Option String) (body : List Ast)
  | Import (lineno col : Nat) (names : List Ast)
  | ImportFrom (lineno col : Nat) (module : Option String) (names : List Ast) (level : Nat)
  | alias (aname : String) (asname : Option String)
  | arg (lineno col : Nat) (aname : String) (ann : Option Ast)
  | arguments (args : List Ast) (vararg : Option Ast) (kwonlyargs : List Ast)
      (kw_defaults : Option (List (Option Ast))) (kwarg : Option Ast)
      (defaults : Option (List Ast))
  | Call (func : Ast) (cargs : List Ast) (keywords : List Ast)
  | Assign (targets : List Ast) (value : Ast)
  | Expr (value : Ast)
  | Pass

/-- Errors of a traversal run.  `indexError` models Python IndexError
(list index or pop on an empty list), `missingField` models
AttributeError from reading a deleted or wrongly-typed field,
`scanError` models the token scan running past the available input
(StopIteration / IndexError inside `advance`), and `fuel` marks
recursion-budget exhaustion of the embedding (not a source behaviour). -/
inductive Err where
  | fuel
  | indexError
  | missingField
  | scanError
deriving DecidableEq, Repr

/-- The mutable fields of the `Visitor` instance: `_table_stack`
(head of the list is the Python list end, the stack top),
`_env` (outermost scope first, innermost last, as in the source),
`_cur_env` (the copy of `_env` made on block entry, initially `None`),
`names` (the append-only output), and the `self_param` writes made to
scope-tree nodes, keyed by table identity. -/
structure St where
  table_stack : List Table
  env : List Table
  cur_env : Option (List Table)
  names : List PNode
  selfParams : List (Nat × String)

/-- Python token classes the scan distinguishes (`token.NAME`,
`token.OP`). -/
inductive TokType where
  | NAME
  | OP
deriving DecidableEq, Repr

/-- A scanned token with its 1-based row and 0-based column, mirroring
the `start` position of Python `tokenize` tokens. -/
structure Tok where
  ttype : TokType
  string : String
  row : Nat
  col : Nat
deriving DecidableEq, Repr

/-- Identifier start character, per Python tokenization of the ASCII
inputs the claims use. -/
def isIdentStart (c : Char) : Bool :=
  c.isAlpha || c = '_'

/-- Identifier continuation character. -/
def isIdentChar (c : Char) : Bool :=
  c.isAlphanum || c = '_'

mutual

/-- Scan one source line into tokens.  Models the behaviour of the
Python `tokenize` module on the line prefixes the visitor scans:
maximal identifier runs become NAME tokens (keywords included, as in
`tokenize`), whitespace separates, and every other character is a
one-character OP token.  Layout tokens (ENCODING, NEWLINE, INDENT,
COMMENT) are omitted because `advance` filters on NAME and OP only. -/
def scanLine (row : Nat) : List Char → Nat → List Tok
  | [], _ => []
  | c :: rest, col =>
    if isIdentStart c then scanIdent row col (col + 1) [c] rest
    else if c = ' ' || c = '\t' then scanLine row rest (col + 1)
    else ⟨.OP, String.mk [c], row, col⟩ :: scanLine row rest (col + 1)

/-- Consume the continuation of an identifier token started at
`startCol` (accumulated characters in `acc`, reversed); a character
that cannot continue an identifier also cannot start one, so it is
whitespace or a one-character OP token. -/
def scanIdent (row startCol col : Nat) (acc : List Char) : List Char → List Tok
  | [] => [⟨.NAME, String.mk acc.reverse, row, startCol⟩]
  | c :: rest =>
    if isIdentChar c then scanIdent row startCol (col + 1) (c :: acc) rest
    else if c = ' ' || c = '\t' then
      ⟨.NAME, String.mk acc.reverse, row, startCol⟩ :: scanLine row rest (col + 1)
    else
      ⟨.NAME, String.mk acc.reverse, row, startCol⟩ ::
        ⟨.OP, String.mk [c], row, col⟩ :: scanLine row rest (col + 1)

end

/-- Source `tokenize_lines(lines)`: token stream of the given line
sequence, rows numbered from 1. -/
def tokenize_lines (lines : List String) : List Tok :=
  (lines.enum.map fun p => scanLine (p.1 + 1) p.2.toList 0).flatten

/-- Selector argument of `advance`: `none` (any string), one string, or
a tuple of strings. -/
inductive Sel where
  | any
  | str (s : String)
  | strs (ss : List String)
deriving DecidableEq, Repr

/-- Whether a token string satisfies a selector. -/
def Sel.matches : Sel → String → Bool
  | .any, _ => true
  | .str s, t => s = t
  | .strs ss, t => ss.contains t

/-- Source `advance(tokens, s, type)`: consume the stream up to and
including the first token of the given type whose string satisfies the
selector; return that token and the remaining stream.  `none` models
the Python call running out of tokens (StopIteration) or out of source
lines (IndexError). -/
def advance : List Tok → Sel → TokType → Option (Tok × List Tok)
  | [], _, _ => none
  | t :: rest, sel, ty =>
    if t.ttype = ty ∧ Sel.matches sel t.string then some (t, rest)
    else advance rest sel ty

/-- Python string slice `s[a:b]` for `a ≤ b` on the character level. -/
def pySlice (s : String) (a b : Nat) : String :=
  String.mk ((s.toList.drop a).take (b - a))

/-- Python string slice `s[a:]`. -/
def pyDrop (s : String) (a : Nat) : String :=
  String.mk (s.toList.drop a)

/-- Latest `self_param` write recorded for a scope node, mirroring
`getattr(table, 'self_param', None)`. -/
def lookupSelfParam (ps : List (Nat × String)) (t : Table) : Option String :=
  (ps.find? fun p => p.1 = t.tid).map fun p => p.2

/-- Source `Visitor._mark_self(node)`: if the first positional
parameter is named `self` or `cls` and the current top of `_env` is a
class scope, record the name on the scope at the top of
`_table_stack` (the next pending scope).  The IndexError from an empty
parameter list is caught in the source (`return`); the IndexError from
indexing `_env` or `_table_stack` when empty is not. -/
def mark_self (argsNode : Ast) (st : St) : Except Err St :=
  match argsNode with
  | .arguments args _ _ _ _ _ =>
    match args.head? with
    | none => .ok st
    | some first =>
      match first with
      | .arg _ _ aname _ =>
        if aname = "self" ∨ aname = "cls" then
          match st.env.getLast? with
          | none => .error .indexError
          | some parent =>
            if parent.get_type = "class" then
              match st.table_stack.head? with
              | none => .error .indexError
              | some top =>
                .ok { st with selfParams := (top.tid, aname) :: st.selfParams }
            else .ok st
        else .ok st
      | _ => .error .missingField
  | _ => .error .missingField

/-- Source `Visitor._add_attribute(node)` for the case where the base
expression is a bare `Name` (the other early-return case is handled at
the dispatch site): if the base identifier equals the `self_param`
recorded on the innermost open scope, emit an attribute Occurrence at
the base position shifted past the dot, with the chain excluding the
innermost scope, and return it so the dispatch site can store it as
the `self_target` of the base identifier. -/
def add_attribute (attr : String) (vlineno vcol : Nat) (vid : String) (st : St) :
    Except Err (Option PNode × St) :=
  if vid = "self" ∨ vid = "cls" then
    match st.env.getLast? with
    | none => .error .indexError
    | some innermost =>
      if lookupSelfParam st.selfParams innermost = some vid then
        let nd : PNode :=
          .mk attr vlineno (vcol + vid.length + 1) (some st.env.dropLast) true none
        .ok (some nd, { st with names := st.names ++ [nd] })
      else .ok (none, st)
  else .ok (none, st)

/-- Extract `(name, asname)` pairs from the `alias` nodes of an import
statement; a non-alias entry would be an AttributeError in the source. -/
def aliasPairs : List Ast → Option (List (String × Option String))
  | [] => some []
  | .alias a s :: rest => (aliasPairs rest).map fun ps => (a, s) :: ps
  | _ => none

/-- The alias loop of `Visitor._visit_import`: the source zips the
aliases with a descending counter of how many remain; a wildcard name
is skipped, an aliased name first advances past the `as` keyword, the
next NAME token gives the emitted name and position, and a separating
comma is consumed whenever more aliases remain. -/
def importLoop (line_idx : Nat) (cur_env : Option (List Table)) :
    List Tok → List (String × Option String) → List PNode →
    Except Err (List PNode)
  | _, [], acc => .ok acc
  | toks, (aname, asname) :: rest, acc =>
    if aname = "*" then importLoop line_idx cur_env toks rest acc
    else
      let toksAfterAs : Option (List Tok) :=
        match asname with
        | some _ => (advance toks (.str "as") .NAME).map fun p => p.2
        | none => some toks
      match toksAfterAs with
      | none => .error .scanError
      | some toks1 =>
        match advance toks1 .any .NAME with
        | none => .error .scanError
        | some (tok, toks2) =>
          let nd : PNode := .mk tok.string (tok.row + line_idx) tok.col cur_env false none
          if rest.isEmpty then importLoop line_idx cur_env toks2 rest (acc ++ [nd])
          else
            match advance toks2 (.str ",") .OP with
            | none => .error .scanError
            | some (_, toks3) => importLoop line_idx cur_env toks3 rest (acc ++ [nd])

/-- Source `Visitor._visit_import(node)`: names in import statements
carry no position in the tree, so the statement text is token-scanned.
The scanned stream starts with the physical statement line padded back
to the statement column (so statements chained with semicolons work)
followed by the remaining physical lines. -/
def visit_import (lines : List String) (lineno col : Nat) (names : List Ast)
    (st : St) : Except Err St :=
  let line_idx := lineno - 1
  match lines.get? line_idx with
  | none => .error .indexError
  | some line =>
    let stream := (String.mk (List.replicate col ' ') ++ pyDrop line col)
      :: lines.drop lineno
    let toks := tokenize_lines stream
    match advance toks (.str "import") .NAME with
    | none => .error .scanError
    | some (_, toks1) =>
      match aliasPairs names with
      | none => .error .missingField
      | some pairs =>
        match importLoop line_idx st.cur_env toks1 pairs [] with
        | .error e => .error e
        | .ok emitted => .ok { st with names := st.names ++ emitted }

/-- Position recovery for a definition name, the non-recursive tail of
`Visitor._visit_class_function_definition`: the arithmetic guess is
the reported column plus 6 for `class`, else 4 (there is no adjustment
for an `async ` prefix in the source); it is accepted when the
definition has no decorators and the guessed slice of the source line
equals the name, and otherwise a token scan from the statement line
looks for a `class` or `def` NAME token followed by the identifier. -/
def cfdName (lines : List String) (isClass : Bool) (lineno col : Nat)
    (dname : String) (decorators : List Ast) : Except Err (Nat × Nat) :=
  let line_idx := lineno - 1
  let start := col + (if isClass then 6 else 4)
  let stop := start + dname.length
  let fallback : Except Err (Nat × Nat) :=
    let toks := tokenize_lines (lines.drop line_idx)
    match advance toks (.strs ["class", "def"]) .NAME with
    | none => .error .scanError
    | some (_, toks1) =>
      match advance toks1 .any .NAME with
      | none => .error .scanError
      | some (tok, _) => .ok (tok.row + line_idx, tok.col)
  if decorators.isEmpty then
    match lines.get? line_idx with
    | none => .error .indexError
    | some line =>
      if pySlice line start stop = dname then .ok (lineno, start) else fallback
  else fallback

/-- The sixteen mutually recursive traversal functions of the
`Visitor` class, bundled at a fixed recursion budget. -/
structure Visit where
  visit : List String → Ast → St → Except Err (Ast × St)
  visitOpt : List String → Option Ast → St → Except Err (Option Ast × St)
  visitList : List String → List Ast → St → Except Err (List Ast × St)
  visitOptList : List String → List (Option Ast) → St → Except Err (List (Option Ast) × St)
  visitFieldList : List String → Option (List Ast) → St → Except Err (Option (List Ast) × St)
  visitFieldOptList : List String → Option (List (Option Ast)) → St →
    Except Err (Option (List (Option Ast)) × St)
  visit_try : List String → Ast → St → Except Err (Ast × St)
  visit_comp : List String → Ast → St → Except Err (Ast × St)
  visit_class_meta : List String → Option (List Ast) → Option (List Ast) → St → Except Err St
  visit_arg_defaults : List String → Ast → St → Except Err (Ast × St)
  visit_annotations : List String → List Ast → St → Except Err (List Ast × St)
  visit_opt_annot : List String → Option Ast → St → Except Err (Option Ast × St)
  visit_args : List String → Ast → Option Ast → St → Except Err (Ast × St)
  visit_cfd : List String → Bool → Nat → Nat → String → Option (List Ast) → St → Except Err St
  visit_block : List String → Ast → St → Except Err (Ast × St)
  iter_node : List String → Ast → St → Except Err (Ast × St)

/-- The exhausted-budget bundle: every function reports `Err.fuel`. -/
def visitNone : Visit where
  visit := fun _ _ _ => .error .fuel
  visitOpt := fun _ _ _ => .error .fuel
  visitList := fun _ _ _ => .error .fuel
  visitOptList := fun _ _ _ => .error .fuel
  visitFieldList := fun _ _ _ => .error .fuel
  visitFieldOptList := fun _ _ _ => .error .fuel
  visit_try := fun _ _ _ => .error .fuel
  visit_comp := fun _ _ _ => .error .fuel
  visit_class_meta := fun _ _ _ _ => .error .fuel
  visit_arg_defaults := fun _ _ _ => .error .fuel
  visit_annotations := fun _ _ _ => .error .fuel
  visit_opt_annot := fun _ _ _ => .error .fuel
  visit_args := fun _ _ _ _ => .error .fuel
  visit_cfd := fun _ _ _ _ _ _ _ => .error .fuel
  visit_block := fun _ _ _ => .error .fuel
  iter_node := fun _ _ _ => .error .fuel

/-- One step of the recursion: every traversal method of the source,
with recursive calls delegated to the bundle `p` of the next smaller
budget.

`visit` is the source `Visitor._visit(node)`: the type-dispatched
traversal.  A bare `Name` emits one Occurrence and returns; an
`Attribute` runs `_add_attribute` and then visits its base and
returns; constant and context-marker kinds return; `Try`, import
statements and `arg` run their specialized handler and fall through to
the generic field iteration; function, lambda, comprehension and class
definitions run their specialized handlers and then the block-entry
protocol; `Module` goes straight to the block-entry protocol; every
other kind is iterated generically.  Deletions performed by the
handlers are reflected by rebuilding the node with the deleted fields
set to `none` before it is handed on.

`visitOpt` dispatches on a field value that may be `None`: the source
calls `_visit(None)`, which matches no type case and falls into the
`None` guard of `_iter_node`, a no-op.  `visitList` visits the
elements of a list field left to right; `visitOptList` the elements of
a list with `None` holes (`kw_defaults`); `visitFieldList` and
`visitFieldOptList` the optional (deletable) list fields, where `none`
is a deleted field, skipped by `_iter_node`.

`visit_try` is `Visitor._visit_try`: visit the protected body, delete
it, visit the else branch, delete it; handlers and finally body are
left to the generic iteration.  `visit_comp` is `Visitor._visit_comp`:
visit the first generator source iterable in the enclosing chain, then
delete it.  `visit_class_meta` is `Visitor._visit_class_meta`: visit
base-class expressions and keyword arguments, deleting both lists.
`visit_arg_defaults` is `Visitor._visit_arg_defaults`: visit
positional and keyword default expressions and delete both lists.
`visit_annotations` and `visit_opt_annot` are the annotation loop
of `Visitor._visit_args` (`if arg is None: continue`); `visit_args`
is `Visitor._visit_args`: visit and delete the annotations in the
source order `args + kwonlyargs + [vararg, kwarg]`, visit and delete
the return annotation, then run `_mark_self`.  `visit_cfd` is
`Visitor._visit_class_function_definition`: visit the decorators in
the enclosing chain and delete the list, then recover the name
position (`cfdName`) and emit the name Occurrence.  `visit_block` is
`Visitor._visit_block`: pop the next pending scope (IndexError when
the queue is empty — a scope-tree mismatch), push its children so they
are consumed left to right, push the scope onto `_env`, snapshot the
chain into `_cur_env`, run the generic iteration, pop `_env` and
re-snapshot.  `iter_node` is `Visitor._iter_node`: iterate the
structural fields in `_fields` order, visiting list elements and
node-valued fields, skipping strings, ints and deleted (`None`)
fields. -/
def visitStep (p : Visit) : Visit where
  visit := fun lines node st =>
    match node with
    | .Name lineno col id _ tgt =>
      .ok (node, { st with
        names := st.names ++ [.mk id lineno col st.cur_env false tgt] })
    | .Attribute value attr ctx =>
      match value with
      | .Name vlineno vcol vid vctx vtgt =>
        match add_attribute attr vlineno vcol vid st with
        | .error e => .error e
        | .ok (tgtNew, st1) =>
          let tgt2 := tgtNew <|> vtgt
          let value1 : Ast := .Name vlineno vcol vid vctx tgt2
          .ok (.Attribute value1 attr ctx, { st1 with
            names := st1.names ++ [.mk vid vlineno vcol st1.cur_env false tgt2] })
      | _ =>
        match p.visit lines value st with
        | .error e => .error e
        | .ok (value1, st1) => .ok (.Attribute value1 attr ctx, st1)
    | .Num _ => .ok (node, st)
    | .Store => .ok (node, st)
    | .Load => .ok (node, st)
    | .Try _ _ _ _ =>
      match p.visit_try lines node st with
      | .error e => .error e
      | .ok (node1, st1) => p.iter_node lines node1 st1
    | .Import lineno col inames =>
      match visit_import lines lineno col inames st with
      | .error e => .error e
      | .ok st1 => p.iter_node lines node st1
    | .ImportFrom lineno col _ inames _ =>
      match visit_import lines lineno col inames st with
      | .error e => .error e
      | .ok st1 => p.iter_node lines node st1
    | .arg lineno col aname _ =>
      p.iter_node lines node { st with
        names := st.names ++ [.mk aname lineno col st.cur_env false none] }
    | .FunctionDef lineno col fname args body dlist ret =>
      match p.visit_arg_defaults lines args st with
      | .error e => .error e
      | .ok (args1, st1) =>
        match p.visit_args lines args1 ret st1 with
        | .error e => .error e
        | .ok (args2, st2) =>
          match p.visit_cfd lines false lineno col fname dlist st2 with
          | .error e => .error e
          | .ok st3 =>
            p.visit_block lines (.FunctionDef lineno col fname args2 body none none) st3
    | .AsyncFunctionDef lineno col fname args body dlist ret =>
      match p.visit_arg_defaults lines args st with
      | .error e => .error e
      | .ok (args1, st1) =>
        match p.visit_args lines args1 ret st1 with
        | .error e => .error e
        | .ok (args2, st2) =>
          match p.visit_cfd lines false lineno col fname dlist st2 with
          | .error e => .error e
          | .ok st3 =>
            p.visit_block lines (.AsyncFunctionDef lineno col fname args2 body none none) st3
    | .Lambda args lbody =>
      match p.visit_arg_defaults lines args st with
      | .error e => .error e
      | .ok (args1, st1) => p.visit_block lines (.Lambda args1 lbody) st1
    | .ListComp _ _ =>
      match p.visit_comp lines node st with
      | .error e => .error e
      | .ok (node1, st1) => p.visit_block lines node1 st1
    | .ClassDef lineno col cname bases kws body dlist =>
      match p.visit_class_meta lines bases kws st with
      | .error e => .error e
      | .ok st1 =>
        match p.visit_cfd lines true lineno col cname dlist st1 with
        | .error e => .error e
        | .ok st2 =>
          p.visit_block lines (.ClassDef lineno col cname none none body none) st2
    | .Module _ => p.visit_block lines node st
    | .comprehension _ _ _ => p.iter_node lines node st
    | .ExceptHandler _ _ _ => p.iter_node lines node st
    | .alias _ _ => p.iter_node lines node st
    | .arguments _ _ _ _ _ _ => p.iter_node lines node st
    | .Call _ _ _ => p.iter_node lines node st
    | .Assign _ _ => p.iter_node lines node st
    | .Expr _ => p.iter_node lines node st
    | .Pass => p.iter_node lines node st
  visitOpt := fun lines onode st =>
    match onode with
    | none => .ok (none, st)
    | some a =>
      match p.visit lines a st with
      | .error e => .error e
      | .ok (a1, st1) => .ok (some a1, st1)
  visitList := fun lines l st =>
    match l with
    | [] => .ok ([], st)
    | a :: rest =>
      match p.visit lines a st with
      | .error e => .error e
      | .ok (a1, st1) =>
        match p.visitList lines rest st1 with
        | .error e => .error e
        | .ok (rest1, st2) => .ok (a1 :: rest1, st2)
  visitOptList := fun lines l st =>
    match l with
    | [] => .ok ([], st)
    | a :: rest =>
      match p.visitOpt lines a st with
      | .error e => .error e
      | .ok (a1, st1) =>
        match p.visitOptList lines rest st1 with
        | .error e => .error e
        | .ok (rest1, st2) => .ok (a1 :: rest1, st2)
  visitFieldList := fun lines ol st =>
    match ol with
    | none => .ok (none, st)
    | some l =>
      match p.visitList lines l st with
      | .error e => .error e
      | .ok (l1, st1) => .ok (some l1, st1)
  visitFieldOptList := fun lines ol st =>
    match ol with
    | none => .ok (none, st)
    | some l =>
      match p.visitOptList lines l st with
      | .error e => .error e
      | .ok (l1, st1) => .ok (some l1, st1)
  visit_try := fun lines node st =>
    match node with
    | .Try obody handlers oorelse finalbody =>
      match obody with
      | none => .error .missingField
      | some bs =>
        match p.visitList lines bs st with
        | .error e => .error e
        | .ok (_, st1) =>
          match oorelse with
          | none => .error .missingField
          | some os =>
            match p.visitList lines os st1 with
            | .error e => .error e
            | .ok (_, st2) => .ok (.Try none handlers none finalbody, st2)
    | _ => .error .missingField
  visit_comp := fun lines node st =>
    match node with
    | .ListComp elt generators =>
      match generators with
      | [] => .error .indexError
      | g :: gs =>
        match g with
        | .comprehension target oiter ifs =>
          match oiter with
          | none => .error .missingField
          | some it =>
            match p.visit lines it st with
            | .error e => .error e
            | .ok (_, st1) =>
              .ok (.ListComp elt (.comprehension target none ifs :: gs), st1)
        | _ => .error .missingField
    | _ => .error .missingField
  visit_class_meta := fun lines obases okws st =>
    match obases with
    | none => .error .missingField
    | some bs =>
      match p.visitList lines bs st with
      | .error e => .error e
      | .ok (_, st1) =>
        match okws with
        | none => .error .missingField
        | some ks =>
          match p.visitList lines ks st1 with
          | .error e => .error e
          | .ok (_, st2) => .ok st2
  visit_arg_defaults := fun lines node st =>
    match node with
    | .arguments args vararg kwonly kwdef kwarg defaults =>
      match defaults, kwdef with
      | some ds, some kds =>
        match p.visitList lines ds st with
        | .error e => .error e
        | .ok (_, st1) =>
          match p.visitOptList lines kds st1 with
          | .error e => .error e
          | .ok (_, st2) => .ok (.arguments args vararg kwonly none kwarg none, st2)
      | _, _ => .error .missingField
    | _ => .error .missingField
  visit_annotations := fun lines l st =>
    match l with
    | [] => .ok ([], st)
    | a :: rest =>
      match a with
      | .arg alineno acol aname ann =>
        match p.visitOpt lines ann st with
        | .error e => .error e
        | .ok (_, st1) =>
          match p.visit_annotations lines rest st1 with
          | .error e => .error e
          | .ok (rest1, st2) => .ok (.arg alineno acol aname none :: rest1, st2)
      | _ => .error .missingField
  visit_opt_annot := fun lines o st =>
    match o with
    | none => .ok (none, st)
    | some a =>
      match a with
      | .arg alineno acol aname ann =>
        match p.visitOpt lines ann st with
        | .error e => .error e
        | .ok (_, st1) => .ok (some (.arg alineno acol aname none), st1)
      | _ => .error .missingField
  visit_args := fun lines node ret st =>
    match node with
    | .arguments args vararg kwonly kwdef kwarg defaults =>
      match p.visit_annotations lines args st with
      | .error e => .error e
      | .ok (args1, st1) =>
        match p.visit_annotations lines kwonly st1 with
        | .error e => .error e
        | .ok (kwonly1, st2) =>
          match p.visit_opt_annot lines vararg st2 with
          | .error e => .error e
          | .ok (vararg1, st3) =>
            match p.visit_opt_annot lines kwarg st3 with
            | .error e => .error e
            | .ok (kwarg1, st4) =>
              match p.visitOpt lines ret st4 with
              | .error e => .error e
              | .ok (_, st5) =>
                let argsNode1 : Ast := .arguments args1 vararg1 kwonly1 kwdef kwarg1 defaults
                match mark_self argsNode1 st5 with
                | .error e => .error e
                | .ok st6 => .ok (argsNode1, st6)
    | _ => .error .missingField
  visit_cfd := fun lines isClass lineno col dname odlist st =>
    match odlist with
    | none => .error .missingField
    | some decorators =>
      match p.visitList lines decorators st with
      | .error e => .error e
      | .ok (_, st1) =>
        match cfdName lines isClass lineno col dname decorators with
        | .error e => .error e
        | .ok (ln, column) =>
          .ok { st1 with names := st1.names ++ [.mk dname ln column st1.cur_env false none] }
  visit_block := fun lines node st =>
    match st.table_stack with
    | [] => .error .indexError
    | current :: rest =>
      let env1 := st.env ++ [current]
      let st1 : St := { st with
        table_stack := current.get_children ++ rest,
        env := env1,
        cur_env := some env1 }
      match p.iter_node lines node st1 with
      | .error e => .error e
      | .ok (node1, st2) =>
        .ok (node1, { st2 with env := st2.env.dropLast, cur_env := some st2.env.dropLast })
  iter_node := fun lines node st =>
    match node with
    | .Module body =>
      match p.visitList lines body st with
      | .error e => .error e
      | .ok (body1, st1) => .ok (.Module body1, st1)
    | .FunctionDef lineno col fname args body dlist ret =>
      match p.visit lines args st with
      | .error e => .error e
      | .ok (args1, st1) =>
        match p.visitList lines body st1 with
        | .error e => .error e
        | .ok (body1, st2) =>
          match p.visitFieldList lines dlist st2 with
          | .error e => .error e
          | .ok (dlist1, st3) =>
            match p.visitOpt lines ret st3 with
            | .error e => .error e
            | .ok (ret1, st4) =>
              .ok (.FunctionDef lineno col fname args1 body1 dlist1 ret1, st4)
    | .AsyncFunctionDef lineno col fname args body dlist ret =>
      match p.visit lines args st with
      | .error e => .error e
      | .ok (args1, st1) =>
        match p.visitList lines body st1 with
        | .error e => .error e
        | .ok (body1, st2) =>
          match p.visitFieldList lines dlist st2 with
          | .error e => .error e
          | .ok (dlist1, st3) =>
            match p.visitOpt lines ret st3 with
            | .error e => .error e
            | .ok (ret1, st4) =>
              .ok (.AsyncFunctionDef lineno col fname args1 body1 dlist1 ret1, st4)
    | .ClassDef lineno col cname bases kws body dlist =>
      match p.visitFieldList lines bases st with
      | .error e => .error e
      | .ok (bases1, st1) =>
        match p.visitFieldList lines kws st1 with
        | .error e => .error e
        | .ok (kws1, st2) =>
          match p.visitList lines body st2 with
          | .error e => .error e
          | .ok (body1, st3) =>
            match p.visitFieldList lines dlist st3 with
            | .error e => .error e
            | .ok (dlist1, st4) =>
              .ok (.ClassDef lineno col cname bases1 kws1 body1 dlist1, st4)
    | .Lambda args lbody =>
      match p.visit lines args st with
      | .error e => .error e
      | .ok (args1, st1) =>
        match p.visit lines lbody st1 with
        | .error e => .error e
        | .ok (lbody1, st2) => .ok (.Lambda args1 lbody1, st2)
    | .ListComp elt generators =>
      match p.visit lines elt st with
      | .error e => .error e
      | .ok (elt1, st1) =>
        match p.visitList lines generators st1 with
        | .error e => .error e
        | .ok (gens1, st2) => .ok (.ListComp elt1 gens1, st2)
    | .comprehension target oiter ifs =>
      match p.visit lines target st with
      | .error e => .error e
      | .ok (target1, st1) =>
        match p.visitOpt lines oiter st1 with
        | .error e => .error e
        | .ok (oiter1, st2) =>
          match p.visitList lines ifs st2 with
          | .error e => .error e
          | .ok (ifs1, st3) => .ok (.comprehension target1 oiter1 ifs1, st3)
    | .Name lineno col id ctx tgt =>
      match p.visit lines ctx st with
      | .error e => .error e
      | .ok (ctx1, st1) => .ok (.Name lineno col id ctx1 tgt, st1)
    | .Attribute value attr ctx =>
      match p.visit lines value st with
      | .error e => .error e
      | .ok (value1, st1) =>
        match p.visit lines ctx st1 with
        | .error e => .error e
        | .ok (ctx1, st2) => .ok (.Attribute value1 attr ctx1, st2)
    | .Num _ => .ok (node, st)
    | .Store => .ok (node, st)
    | .Load => .ok (node, st)
    | .Try obody handlers oorelse finalbody =>
      match p.visitFieldList lines obody st with
      | .error e => .error e
      | .ok (obody1, st1) =>
        match p.visitList lines handlers st1 with
        | .error e => .error e
        | .ok (handlers1, st2) =>
          match p.visitFieldList lines oorelse st2 with
          | .error e => .error e
          | .ok (oorelse1, st3) =>
            match p.visitList lines finalbody st3 with
            | .error e => .error e
            | .ok (finalbody1, st4) =>
              .ok (.Try obody1 handlers1 oorelse1 finalbody1, st4)
    | .ExceptHandler etype ename body =>
      match p.visitOpt lines etype st with
      | .error e => .error e
      | .ok (etype1, st1) =>
        match p.visitList lines body st1 with
        | .error e => .error e
        | .ok (body1, st2) => .ok (.ExceptHandler etype1 ename body1, st2)
    | .Import lineno col inames =>
      match p.visitList lines inames st with
      | .error e => .error e
      | .ok (inames1, st1) => .ok (.Import lineno col inames1, st1)
    | .ImportFrom lineno col m inames lvl =>
      match p.visitList lines inames st with
      | .error e => .error e
      | .ok (inames1, st1) => .ok (.ImportFrom lineno col m inames1 lvl, st1)
    | .alias _ _ => .ok (node, st)
    | .arg lineno col aname ann =>
      match p.visitOpt lines ann st with
      | .error e => .error e
      | .ok (ann1, st1) => .ok (.arg lineno col aname ann1, st1)
    | .arguments args vararg kwonly kwdef kwarg defaults =>
      match p.visitList lines args st with
      | .error e => .error e
      | .ok (args1, st1) =>
        match p.visitOpt lines vararg st1 with
        | .error e => .error e
        | .ok (vararg1, st2) =>
          match p.visitList lines kwonly st2 with
          | .error e => .error e
          | .ok (kwonly1, st3) =>
            match p.visitFieldOptList lines kwdef st3 with
            | .error e => .error e
            | .ok (kwdef1, st4) =>
              match p.visitOpt lines kwarg st4 with
              | .error e => .error e
              | .ok (kwarg1, st5) =>
                match p.visitFieldList lines defaults st5 with
                | .error e => .error e
                | .ok (defaults1, st6) =>
                  .ok (.arguments args1 vararg1 kwonly1 kwdef1 kwarg1 defaults1, st6)
    | .Call func cargs kws =>
      match p.visit lines func st with
      | .error e => .error e
      | .ok (func1, st1) =>
        match p.visitList lines cargs st1 with
        | .error e => .error e
        | .ok (cargs1, st2) =>
          match p.visitList lines kws st2 with
          | .error e => .error e
          | .ok (kws1, st3) => .ok (.Call func1 cargs1 kws1, st3)
    | .Assign targets value =>
      match p.visitList lines targets st with
      | .error e => .error e
      | .ok (targets1, st1) =>
        match p.visit lines value st1 with
        | .error e => .error e
        | .ok (value1, st2) => .ok (.Assign targets1 value1, st2)
    | .Expr value =>
      match p.visit lines value st with
      | .error e => .error e
      | .ok (value1, st1) => .ok (.Expr value1, st1)
    | .Pass => .ok (node, st)

/-- The traversal bundle at a given recursion budget. -/
def visitPack : Nat → Visit
  | 0 => visitNone
  | n + 1 => visitStep (visitPack n)

/-- Source `Visitor._visit(node)` at a recursion budget. -/
def visit (fuel : Nat) (lines : List String) (node : Ast) (st : St) :
    Except Err (Ast × St) :=
  (visitPack fuel).visit lines node st

/-- Source `_visit` applied to a possibly absent child (`None`). -/
def visitOpt (fuel : Nat) (lines : List String) (onode : Option Ast) (st : St) :
    Except Err (Option Ast × St) :=
  (visitPack fuel).visitOpt lines onode st

/-- The list case of `Visitor._iter_node` at a recursion budget. -/
def visitList (fuel : Nat) (lines : List String) (l : List Ast) (st : St) :
    Except Err (List Ast × St) :=
  (visitPack fuel).visitList lines l st

/-- The list-with-holes case (`kw_defaults`) at a recursion budget. -/
def visitOptList (fuel : Nat) (lines : List String) (l : List (Option Ast)) (st : St) :
    Except Err (List (Option Ast) × St) :=
  (visitPack fuel).visitOptList lines l st

/-- An optional (deletable) list field at a recursion budget. -/
def visitFieldList (fuel : Nat) (lines : List String) (l : Option (List Ast)) (st : St) :
    Except Err (Option (List Ast) × St) :=
  (visitPack fuel).visitFieldList lines l st

/-- An optional list-with-holes field at a recursion budget. -/
def visitFieldOptList (fuel : Nat) (lines : List String)
    (l : Option (List (Option Ast))) (st : St) :
    Except Err (Option (List (Option Ast)) × St) :=
  (visitPack fuel).visitFieldOptList lines l st

/-- Source `Visitor._visit_try(node)` at a recursion budget. -/
def visit_try (fuel : Nat) (lines : List String) (node : Ast) (st : St) :
    Except Err (Ast × St) :=
  (visitPack fuel).visit_try lines node st

/-- Source `Visitor._visit_comp(node)` at a recursion budget. -/
def visit_comp (fuel : Nat) (lines : List String) (node : Ast) (st : St) :
    Except Err (Ast × St) :=
  (visitPack fuel).visit_comp lines node st

/-- Source `Visitor._visit_class_meta(node)` at a recursion budget. -/
def visit_class_meta (fuel : Nat) (lines : List String)
    (obases okws : Option (List Ast)) (st : St) : Except Err St :=
  (visitPack fuel).visit_class_meta lines obases okws st

/-- Source `Visitor._visit_arg_defaults(node)` at a recursion budget. -/
def visit_arg_defaults (fuel : Nat) (lines : List String) (node : Ast) (st : St) :
    Except Err (Ast × St) :=
  (visitPack fuel).visit_arg_defaults lines node st

/-- The annotation loop of `Visitor._visit_args` at a recursion budget. -/
def visit_annotations (fuel : Nat) (lines : List String) (l : List Ast) (st : St) :
    Except Err (List Ast × St) :=
  (visitPack fuel).visit_annotations lines l st

/-- The optional-parameter annotation case of `Visitor._visit_args`. -/
def visit_opt_annot (fuel : Nat) (lines : List String) (o : Option Ast) (st : St) :
    Except Err (Option Ast × St) :=
  (visitPack fuel).visit_opt_annot lines o st

/-- Source `Visitor._visit_args(node)` at a recursion budget. -/
def visit_args (fuel : Nat) (lines : List String) (node : Ast) (ret : Option Ast)
    (st : St) : Except Err (Ast × St) :=
  (visitPack fuel).visit_args lines node ret st

/-- Source `Visitor._visit_class_function_definition(node)` at a
recursion budget. -/
def visit_cfd (fuel : Nat) (lines : List String) (isClass : Bool) (lineno col : Nat)
    (dname : String) (odlist : Option (List Ast)) (st : St) : Except Err St :=
  (visitPack fuel).visit_cfd lines isClass lineno col dname odlist st

/-- Source `Visitor._visit_block(node)` at a recursion budget. -/
def visit_block (fuel : Nat) (lines : List String) (node : Ast) (st : St) :
    Except Err (Ast × St) :=
  (visitPack fuel).visit_block lines node st

/-- Source `Visitor._iter_node(node)` at a recursion budget. -/
def iter_node (fuel : Nat) (lines : List String) (node : Ast) (st : St) :
    Except Err (Ast × St) :=
  (visitPack fuel).iter_node lines node st

/-- The initial `Visitor` state (`Visitor.__init__`): the root table on
the pending stack, empty chain, no chain snapshot yet, no output. -/
def init_state (root_table : Table) : St :=
  ⟨[root_table], [], none, [], []⟩

/-- Run the traversal from `Visitor.__call__`, returning the visited
(possibly mutated) tree together with the final visitor state. -/
def run_visitor (fuel : Nat) (lines : List String) (root_table : Table)
    (root_node : Ast) : Except Err (Ast × St) :=
  visit fuel lines root_node (init_state root_table)

/-- Source module-level `visitor(lines, symtable_root, ast_root)`:
construct a fresh `Visitor` and return its name list. -/
def visitor (fuel : Nat) (lines : List String) (root_table : Table)
    (root_node : Ast) : Except Err (List PNode) :=
  match run_visitor fuel lines root_table root_node with
  | .error e => .error e
  | .ok (_, st) => .ok st.names


/-- Frame property relating the visitor state before and after one
traversal step: the lexical chain is restored, already-emitted
Occurrences are untouched (the output only grows at its end), and the
chain snapshot is either untouched or re-snapshotted to the (restored)
chain.  Nothing is said about `table_stack` (the pending-scope queue
is consumed) or `selfParams`. -/
def Frame (st st' : St) : Prop :=
  st'.env = st.env ∧ (∃ t, st'.names = st.names ++ t) ∧
    (st'.cur_env = st.cur_env ∨ st'.cur_env = some st.env)


/-! ## Concrete claim inputs

Each input is a source fragment together with its Python 3.7 syntax
tree and symbol-table tree (children in the order the symbol-table
builder enters blocks: default values, annotations, decorators, then
the definition body). -/

/-- Claim C1 input source: a class with a method whose default value
and self-attribute exercise the field deletions and the `self_target`
write. -/
def c1_lines : List String :=
  ["class C:", "    def f(self, a=g):", "        self.x"]

/-- Scope of `f` in the C1 input. -/
def c1_t2 : Table := .mk 2 "function" []

/-- Scope of `C` in the C1 input. -/
def c1_t1 : Table := .mk 1 "class" [c1_t2]

/-- Module scope of the C1 input. -/
def c1_t0 : Table := .mk 0 "module" [c1_t1]

/-- Syntax tree of the C1 input. -/
def c1_ast : Ast := .Module [
  .ClassDef 1 0 "C" (some []) (some [])
    [ .FunctionDef 2 4 "f"
        (.arguments [.arg 2 10 "self" none, .arg 2 16 "a" none] none []
          (some []) none (some [.Name 2 18 "g" .Load none]))
        [ .Expr (.Attribute (.Name 3 8 "self" .Load none) "x" .Load) ]
        (some []) none ]
    (some []) ]

/-- The attribute Occurrence the C1 run emits for `self.x`. -/
def c1_xnode : PNode := .mk "x" 3 13 (some [c1_t0, c1_t1]) true none

/-- The Occurrence sequence the C1 run emits. -/
def c1_names_out : List PNode := [
  .mk "C" 1 6 (some [c1_t0]) false none,
  .mk "g" 2 18 (some [c1_t0, c1_t1]) false none,
  .mk "f" 2 8 (some [c1_t0, c1_t1]) false none,
  .mk "self" 2 10 (some [c1_t0, c1_t1, c1_t2]) false none,
  .mk "a" 2 16 (some [c1_t0, c1_t1, c1_t2]) false none,
  c1_xnode,
  .mk "self" 3 8 (some [c1_t0, c1_t1, c1_t2]) false (some c1_xnode) ]

/-- The syntax tree as left behind by the C1 run: default lists,
keyword-default lists, annotations, return annotations, decorator
lists, class bases and keywords are deleted, and the base identifier
of `self.x` carries the `self_target` back-reference. -/
def c1_ast_out : Ast := .Module [
  .ClassDef 1 0 "C" none none
    [ .FunctionDef 2 4 "f"
        (.arguments [.arg 2 10 "self" none, .arg 2 16 "a" none] none []
          none none none)
        [ .Expr (.Attribute (.Name 3 8 "self" .Load (some c1_xnode)) "x" .Load) ]
        none none ]
    none ]

/-- Claim C2 input source: a method whose decorator contains a
scope-introducing lambda.  In the symbol table the lambda scope
precedes the scope of `m` among the children of `A`, because the
symbol-table builder visits defaults, annotations and decorators
before entering the function block — the same order in which the
visitor itself consumes pending scopes. -/
def c2_lines : List String :=
  ["class A:", "    @d(lambda x: x)", "    def m(self): pass"]

/-- Scope of the decorator lambda in the C2 input. -/
def c2_tlam : Table := .mk 2 "function" []

/-- Scope of `m` in the C2 input. -/
def c2_tm : Table := .mk 3 "function" []

/-- Scope of `A` in the C2 input. -/
def c2_t1 : Table := .mk 1 "class" [c2_tlam, c2_tm]

/-- Module scope of the C2 input. -/
def c2_t0 : Table := .mk 0 "module" [c2_t1]

/-- Syntax tree of the C2 input (Python 3.7 gives a decorated
definition the position of its first decorator). -/
def c2_ast : Ast := .Module [
  .ClassDef 1 0 "A" (some []) (some [])
    [ .FunctionDef 2 4 "m"
        (.arguments [.arg 3 10 "self" none] none [] (some []) none (some []))
        [.Pass]
        (some [ .Call (.Name 2 5 "d" .Load none)
                 [ .Lambda (.arguments [.arg 2 14 "x" none] none []
                     (some []) none (some []))
                     (.Name 2 17 "x" .Load none) ] [] ])
        none ]
    (some []) ]

/-- The Occurrence sequence the C2 run emits.  The chain of the lambda
parameter `x` ends in `c2_tlam` and the chain of the parameter `self`
ends in `c2_tm`, showing which pending scope each block consumed. -/
def c2_names_out : List PNode := [
  .mk "A" 1 6 (some [c2_t0]) false none,
  .mk "d" 2 5 (some [c2_t0, c2_t1]) false none,
  .mk "x" 2 14 (some [c2_t0, c2_t1, c2_tlam]) false none,
  .mk "x" 2 17 (some [c2_t0, c2_t1, c2_tlam]) false none,
  .mk "m" 3 8 (some [c2_t0, c2_t1]) false none,
  .mk "self" 3 10 (some [c2_t0, c2_t1, c2_tm]) false none ]

/-- Claim C3 counterexample input: an async definition whose
one-letter name happens to equal the slice at the unadjusted guess
column (`col_offset + 4` falls on the `c` of `async`). -/
def c3a_lines : List String := ["async def c(): pass"]

/-- Scope of the async function in the C3 counterexample input. -/
def c3a_t1 : Table := .mk 1 "function" []

/-- Module scope of the C3 counterexample input. -/
def c3a_t0 : Table := .mk 0 "module" [c3a_t1]

/-- Syntax tree of the C3 counterexample input. -/
def c3a_ast : Ast := .Module [
  .AsyncFunctionDef 1 0 "c" (.arguments [] none [] (some []) none (some []))
    [.Pass] (some []) none ]

/-- Claim C3 amended input: a twice-decorated definition with a
wrapped signature (Python 3.7 positions the node at the first
decorator). -/
def c3b_lines : List String := ["@d1", "@d2", "def foo(a,", "        b): pass"]

/-- Module scope of the decorated-definition input. -/
def c3b_t0 : Table := .mk 0 "module" [.mk 1 "function" []]

/-- Syntax tree of the decorated-definition input. -/
def c3b_ast : Ast := .Module [
  .FunctionDef 1 0 "foo"
    (.arguments [.arg 3 8 "a" none, .arg 4 8 "b" none] none [] (some []) none (some []))
    [.Pass]
    (some [.Name 1 1 "d1" .Load none, .Name 2 1 "d2" .Load none]) none ]

/-- Claim C3 amended input: an async definition whose name does not
match the unadjusted guess slice, forcing the token-scan fallback. -/
def c3c_lines : List String := ["async def foo(): pass"]

/-- Module scope of the async fallback input. -/
def c3c_t0 : Table := .mk 0 "module" [.mk 1 "function" []]

/-- Syntax tree of the async fallback input. -/
def c3c_ast : Ast := .Module [
  .AsyncFunctionDef 1 0 "foo" (.arguments [] none [] (some []) none (some []))
    [.Pass] (some []) none ]

/-- Claim C4 input source, exactly the fragment of the spec. -/
def c4_lines : List String :=
  ["class C:", "    def foo(self):", "        self.x = 1"]

/-- Scope of `foo` in the C4 input. -/
def c4_t2 : Table := .mk 2 "function" []

/-- Scope of `C` in the C4 input. -/
def c4_t1 : Table := .mk 1 "class" [c4_t2]

/-- Module scope of the C4 input. -/
def c4_t0 : Table := .mk 0 "module" [c4_t1]

/-- Syntax tree of the C4 input. -/
def c4_ast : Ast := .Module [
  .ClassDef 1 0 "C" (some []) (some [])
    [ .FunctionDef 2 4 "foo"
        (.arguments [.arg 2 12 "self" none] none [] (some []) none (some []))
        [ .Assign [.Attribute (.Name 3 8 "self" .Load none) "x" .Store] (.Num 1) ]
        (some []) none ]
    (some []) ]

/-- The attribute Occurrence the C4 run emits: name `x`, the base
identifier line, the base column plus the base length plus one, the
chain with the innermost (function) entry removed, and the attribute
flag set. -/
def c4_xnode : PNode :=
  .mk "x" 3 (8 + "self".length + 1) (some [c4_t0, c4_t1]) true none

/-- Claim C5 input source: a chained aliased import and a wildcard
import. -/
def c5_lines : List String := ["import a, b as c", "from x import *"]

/-- Module scope of the C5 input. -/
def c5_t0 : Table := .mk 0 "module" []

/-- Syntax tree of the C5 input. -/
def c5_ast : Ast := .Module [
  .Import 1 0 [.alias "a" none, .alias "b" (some "c")],
  .ImportFrom 2 0 (some "x") [.alias "*" none] 0 ]

/-- Claim C6 input source, exactly the fragment of the spec. -/
def c6_lines : List String := ["def f(a, b=g()): pass"]

/-- Scope of `f` in the C6 input. -/
def c6_t1 : Table := .mk 1 "function" []

/-- Module scope of the C6 input. -/
def c6_t0 : Table := .mk 0 "module" [c6_t1]

/-- Syntax tree of the C6 input. -/
def c6_ast : Ast := .Module [
  .FunctionDef 1 0 "f"
    (.arguments [.arg 1 6 "a" none, .arg 1 9 "b" none] none [] (some []) none
      (some [.Call (.Name 1 11 "g" .Load none) [] []]))
    [.Pass] (some []) none ]

/-- Claim C7 input source: try / except / else with one call per
branch, all names at distinct positions. -/
def c7_lines : List String :=
  ["try:", "    a()", "except E:", "    b()", "else:", "    c()"]

/-- Module scope of the C7 input. -/
def c7_t0 : Table := .mk 0 "module" []

/-- Syntax tree of the C7 input. -/
def c7_ast : Ast := .Module [
  .Try (some [.Expr (.Call (.Name 2 4 "a" .Load none) [] [])])
    [ .ExceptHandler (some (.Name 3 7 "E" .Load none)) none
        [.Expr (.Call (.Name 4 4 "b" .Load none) [] [])] ]
    (some [.Expr (.Call (.Name 6 4 "c" .Load none) [] [])])
    [] ]

/-- Source-position order on (line, column) pairs. -/
def posLE (p q : Nat × Nat) : Prop :=
  p.1 < q.1 ∨ (p.1 = q.1 ∧ p.2 ≤ q.2)

/-- Claim C8 input: a module containing a lambda, paired with a scope
tree that has no child for the lambda — the structural mismatch the
claim is about. -/
def c8_t0 : Table := .mk 0 "module" []

/-- Syntax tree of the C8 input. -/
def c8_ast : Ast := .Module [
  .Expr (.Lambda (.arguments [] none [] (some []) none (some []))
    (.Name 1 10 "x" .Load none)) ]

/-- Claim C9 input: two sibling statements at the same nesting depth. -/
def c9_lines : List String := ["a; b"]

/-- Module scope of the C9 input. -/
def c9_t0 : Table := .mk 0 "module" []

/-- Syntax tree of the C9 input. -/
def c9_ast : Ast := .Module [
  .Expr (.Name 1 0 "a" .Load none),
  .Expr (.Name 1 3 "b" .Load none) ]

/-- A state is framed by itself (also up to fields `Frame` ignores). -/
theorem Frame.refl (st : St) : Frame st st :=
  ⟨rfl, ⟨[], (List.append_nil _).symm⟩, Or.inl rfl⟩

/-- Frames compose. -/
theorem Frame.trans {s1 s2 s3 : St} (h1 : Frame s1 s2) (h2 : Frame s2 s3) :
    Frame s1 s3 := by
  obtain ⟨e1, ⟨t1, n1⟩, c1⟩ := h1
  obtain ⟨e2, ⟨t2, n2⟩, c2⟩ := h2
  refine ⟨e2.trans e1, ⟨t1 ++ t2, by rw [n2, n1, List.append_assoc]⟩, ?_⟩
  rcases c2 with c2 | c2
  · rw [c2]; exact c1
  · right; rw [c2, e1]

/-- `_mark_self` only writes `self_param`; the chain, snapshot and
output are untouched. -/
theorem mark_self_frame (a : Ast) (st st' : St)
    (h : mark_self a st = .ok st') : Frame st st' := by
  unfold mark_self at h
  repeat' split at h
  all_goals try cases h
  all_goals exact Frame.refl st

/-- `_add_attribute` at most appends one Occurrence. -/
theorem add_attribute_frame (attr : String) (vl vc : Nat) (vid : String) (st : St)
    (r : Option PNode × St) (h : add_attribute attr vl vc vid st = .ok r) :
    Frame st r.2 := by
  unfold add_attribute at h
  repeat' split at h
  all_goals try cases h
  all_goals try exact Frame.refl st
  all_goals exact ⟨rfl, ⟨_, rfl⟩, Or.inl rfl⟩

/-- `_visit_import` only appends Occurrences. -/
theorem visit_import_frame (lines : List String) (lineno col : Nat)
    (names : List Ast) (st st' : St)
    (h : visit_import lines lineno col names st = .ok st') : Frame st st' := by
  simp only [visit_import] at h
  repeat' split at h
  all_goals try cases h
  all_goals exact ⟨rfl, ⟨_, rfl⟩, Or.inl rfl⟩


theorem frame_step_visit (n : Nat)
    (ihv : ∀ lines a st r, visit n lines a st = .ok r → Frame st r.2)
    (iht : ∀ lines a st r, visit_try n lines a st = .ok r → Frame st r.2)
    (ihc : ∀ lines a st r, visit_comp n lines a st = .ok r → Frame st r.2)
    (ihm : ∀ lines b k st st', visit_class_meta n lines b k st = .ok st' → Frame st st')
    (ihad : ∀ lines a st r, visit_arg_defaults n lines a st = .ok r → Frame st r.2)
    (ihag : ∀ lines a ret st r, visit_args n lines a ret st = .ok r → Frame st r.2)
    (ihcfd : ∀ lines ic ln cl nm dl st st',
      visit_cfd n lines ic ln cl nm dl st = .ok st' → Frame st st')
    (ihb : ∀ lines a st r, visit_block n lines a st = .ok r → Frame st r.2)
    (ihi : ∀ lines a st r, iter_node n lines a st = .ok r → Frame st r.2) :
    ∀ lines node st r, visit (n + 1) lines node st = .ok r → Frame st r.2 := by
  intro lines node st r h
  cases node with
  | Module body =>
    simp only [visit, visitPack, visitStep] at h
    exact ihb lines _ st r h
  | Name lineno col id ctx tgt =>
    simp only [visit, visitPack, visitStep] at h
    injection h with h2
    subst h2
    exact ⟨rfl, ⟨_, rfl⟩, Or.inl rfl⟩
  | Attribute value attr ctx =>
    simp only [visit, visitPack, visitStep] at h
    split at h
    · rename_i vlineno vcol vid vctx vtgt
      split at h
      · cases h
      · rename_i tgtNew st1 heqa
        injection h with h2
        subst h2
        exact (add_attribute_frame attr vlineno vcol vid st (tgtNew, st1) heqa).trans
          ⟨rfl, ⟨_, rfl⟩, Or.inl rfl⟩
    · split at h
      · cases h
      · rename_i value1 st1 heqv
        injection h with h2
        subst h2
        exact ihv lines value st (value1, st1) heqv
  | Num k =>
    simp only [visit, visitPack, visitStep] at h
    injection h with h2
    subst h2
    exact Frame.refl st
  | Store =>
    simp only [visit, visitPack, visitStep] at h
    injection h with h2
    subst h2
    exact Frame.refl st
  | Load =>
    simp only [visit, visitPack, visitStep] at h
    injection h with h2
    subst h2
    exact Frame.refl st
  | Try obody handlers oorelse finalbody =>
    simp only [visit, visitPack, visitStep] at h
    split at h
    · cases h
    · rename_i node1 st1 heqt
      exact (iht lines _ st (node1, st1) heqt).trans (ihi lines node1 st1 r h)
  | Import lineno col inames =>
    simp only [visit, visitPack, visitStep] at h
    split at h
    · cases h
    · rename_i st1 heqi
      exact (visit_import_frame lines lineno col inames st st1 heqi).trans
        (ihi lines _ st1 r h)
  | ImportFrom lineno col m inames lvl =>
    simp only [visit, visitPack, visitStep] at h
    split at h
    · cases h
    · rename_i st1 heqi
      exact (visit_import_frame lines lineno col inames st st1 heqi).trans
        (ihi lines _ st1 r h)
  | arg lineno col aname ann =>
    simp only [visit, visitPack, visitStep] at h
    refine Frame.trans ?_ (ihi lines _ _ r h)
    exact ⟨rfl, ⟨_, rfl⟩, Or.inl rfl⟩
  | FunctionDef lineno col fname args body dlist ret =>
    simp only [visit, visitPack, visitStep] at h
    split at h
    · cases h
    · rename_i args1 st1 heq1
      split at h
      · cases h
      · rename_i args2 st2 heq2
        split at h
        · cases h
        · rename_i st3 heq3
          exact ((ihad lines args st (args1, st1) heq1).trans
              (ihag lines args1 ret st1 (args2, st2) heq2)).trans
            ((ihcfd lines false lineno col fname dlist st2 st3 heq3).trans
              (ihb lines _ st3 r h))
  | AsyncFunctionDef lineno col fname args body dlist ret =>
    simp only [visit, visitPack, visitStep] at h
    split at h
    · cases h
    · rename_i args1 st1 heq1
      split at h
      · cases h
      · rename_i args2 st2 heq2
        split at h
        · cases h
        · rename_i st3 heq3
          exact ((ihad lines args st (args1, st1) heq1).trans
              (ihag lines args1 ret st1 (args2, st2) heq2)).trans
            ((ihcfd lines false lineno col fname dlist st2 st3 heq3).trans
              (ihb lines _ st3 r h))
  | Lambda args lbody =>
    simp only [visit, visitPack, visitStep] at h
    split at h
    · cases h
    · rename_i args1 st1 heq1
      exact (ihad lines args st (args1, st1) heq1).trans (ihb lines _ st1 r h)
  | ListComp elt generators =>
    simp only [visit, visitPack, visitStep] at h
    split at h
    · cases h
    · rename_i node1 st1 heq1
      exact (ihc lines _ st (node1, st1) heq1).trans (ihb lines node1 st1 r h)
  | ClassDef lineno col cname bases kws body dlist =>
    simp only [visit, visitPack, visitStep] at h
    split at h
    · cases h
    · rename_i st1 heq1
      split at h
      · cases h
      · rename_i st2 heq2
        exact ((ihm lines bases kws st st1 heq1).trans
            (ihcfd lines true lineno col cname dlist st1 st2 heq2)).trans
          (ihb lines _ st2 r h)
  | comprehension target oiter ifs =>
    simp only [visit, visitPack, visitStep] at h
    exact ihi lines _ st r h
  | ExceptHandler etype ename body =>
    simp only [visit, visitPack, visitStep] at h
    exact ihi lines _ st r h
  | «alias» aname asname =>
    simp only [visit, visitPack, visitStep] at h
    exact ihi lines _ st r h
  | arguments args vararg kwonly kwdef kwarg defaults =>
    simp only [visit, visitPack, visitStep] at h
    exact ihi lines _ st r h
  | Call func cargs kws =>
    simp only [visit, visitPack, visitStep] at h
    exact ihi lines _ st r h
  | Assign targets value =>
    simp only [visit, visitPack, visitStep] at h
    exact ihi lines _ st r h
  | Expr value =>
    simp only [visit, visitPack, visitStep] at h
    exact ihi lines _ st r h
  | Pass =>
    simp only [visit, visitPack, visitStep] at h
    exact ihi lines _ st r h

theorem frame_step_visitOpt (n : Nat)
    (ihv : ∀ lines a st r, visit n lines a st = .ok r → Frame st r.2) :
    ∀ lines onode st r, visitOpt (n + 1) lines onode st = .ok r → Frame st r.2 := by
  intro lines onode st r h
  cases onode with
  | none =>
    simp only [visitOpt, visitPack, visitStep] at h
    injection h with h2
    subst h2
    exact Frame.refl st
  | some a =>
    simp only [visitOpt, visitPack, visitStep] at h
    split at h
    · cases h
    · rename_i a1 st1 heq
      injection h with h2
      subst h2
      exact ihv lines a st (a1, st1) heq

theorem frame_step_visitList (n : Nat)
    (ihv : ∀ lines a st r, visit n lines a st = .ok r → Frame st r.2)
    (ihl : ∀ lines l st r, visitList n lines l st = .ok r → Frame st r.2) :
    ∀ lines l st r, visitList (n + 1) lines l st = .ok r → Frame st r.2 := by
  intro lines l st r h
  cases l with
  | nil =>
    simp only [visitList, visitPack, visitStep] at h
    injection h with h2
    subst h2
    exact Frame.refl st
  | cons a rest =>
    simp only [visitList, visitPack, visitStep] at h
    split at h
    · cases h
    · rename_i a1 st1 heq1
      split at h
      · cases h
      · rename_i rest1 st2 heq2
        injection h with h2
        subst h2
        exact (ihv lines a st (a1, st1) heq1).trans (ihl lines rest st1 (rest1, st2) heq2)

theorem frame_step_visitOptList (n : Nat)
    (ihvo : ∀ lines o st r, visitOpt n lines o st = .ok r → Frame st r.2)
    (ihol : ∀ lines l st r, visitOptList n lines l st = .ok r → Frame st r.2) :
    ∀ lines l st r, visitOptList (n + 1) lines l st = .ok r → Frame st r.2 := by
  intro lines l st r h
  cases l with
  | nil =>
    simp only [visitOptList, visitPack, visitStep] at h
    injection h with h2
    subst h2
    exact Frame.refl st
  | cons a rest =>
    simp only [visitOptList, visitPack, visitStep] at h
    split at h
    · cases h
    · rename_i a1 st1 heq1
      split at h
      · cases h
      · rename_i rest1 st2 heq2
        injection h with h2
        subst h2
        exact (ihvo lines a st (a1, st1) heq1).trans (ihol lines rest st1 (rest1, st2) heq2)

theorem frame_step_visitFieldList (n : Nat)
    (ihl : ∀ lines l st r, visitList n lines l st = .ok r → Frame st r.2) :
    ∀ lines ol st r, visitFieldList (n + 1) lines ol st = .ok r → Frame st r.2 := by
  intro lines ol st r h
  cases ol with
  | none =>
    simp only [visitFieldList, visitPack, visitStep] at h
    injection h with h2
    subst h2
    exact Frame.refl st
  | some l =>
    simp only [visitFieldList, visitPack, visitStep] at h
    split at h
    · cases h
    · rename_i l1 st1 heq
      injection h with h2
      subst h2
      exact ihl lines l st (l1, st1) heq

theorem frame_step_visitFieldOptList (n : Nat)
    (ihol : ∀ lines l st r, visitOptList n lines l st = .ok r → Frame st r.2) :
    ∀ lines ol st r, visitFieldOptList (n + 1) lines ol st = .ok r → Frame st r.2 := by
  intro lines ol st r h
  cases ol with
  | none =>
    simp only [visitFieldOptList, visitPack, visitStep] at h
    injection h with h2
    subst h2
    exact Frame.refl st
  | some l =>
    simp only [visitFieldOptList, visitPack, visitStep] at h
    split at h
    · cases h
    · rename_i l1 st1 heq
      injection h with h2
      subst h2
      exact ihol lines l st (l1, st1) heq

theorem frame_step_visit_try (n : Nat)
    (ihl : ∀ lines l st r, visitList n lines l st = .ok r → Frame st r.2) :
    ∀ lines node st r, visit_try (n + 1) lines node st = .ok r → Frame st r.2 := by
  intro lines node st r h
  simp only [visit_try, visitPack, visitStep] at h
  split at h
  · rename_i obody handlers oorelse finalbody
    split at h
    · cases h
    · rename_i bs
      split at h
      · cases h
      · rename_i bs1 st1 heq1
        split at h
        · cases h
        · rename_i os
          split at h
          · cases h
          · rename_i os1 st2 heq2
            injection h with h2
            subst h2
            exact (ihl lines bs st (bs1, st1) heq1).trans
              (ihl lines os st1 (os1, st2) heq2)
  · cases h

theorem frame_step_visit_comp (n : Nat)
    (ihv : ∀ lines a st r, visit n lines a st = .ok r → Frame st r.2) :
    ∀ lines node st r, visit_comp (n + 1) lines node st = .ok r → Frame st r.2 := by
  intro lines node st r h
  simp only [visit_comp, visitPack, visitStep] at h
  split at h
  · rename_i elt generators
    split at h
    · cases h
    · rename_i g gs
      split at h
      · rename_i target oiter ifs
        split at h
        · cases h
        · rename_i it
          split at h
          · cases h
          · rename_i it1 st1 heq
            injection h with h2
            subst h2
            exact ihv lines it st (it1, st1) heq
      · cases h
  · cases h

theorem frame_step_visit_class_meta (n : Nat)
    (ihl : ∀ lines l st r, visitList n lines l st = .ok r → Frame st r.2) :
    ∀ lines obases okws st st',
      visit_class_meta (n + 1) lines obases okws st = .ok st' → Frame st st' := by
  intro lines obases okws st st' h
  simp only [visit_class_meta, visitPack, visitStep] at h
  split at h
  · cases h
  · rename_i bs
    split at h
    · cases h
    · rename_i bs1 st1 heq1
      split at h
      · cases h
      · rename_i ks
        split at h
        · cases h
        · rename_i ks1 st2 heq2
          injection h with h2
          subst h2
          exact (ihl lines bs st (bs1, st1) heq1).trans
            (ihl lines ks st1 (ks1, st2) heq2)

theorem frame_step_visit_arg_defaults (n : Nat)
    (ihl : ∀ lines l st r, visitList n lines l st = .ok r → Frame st r.2)
    (ihol : ∀ lines l st r, visitOptList n lines l st = .ok r → Frame st r.2) :
    ∀ lines node st r, visit_arg_defaults (n + 1) lines node st = .ok r → Frame st r.2 := by
  intro lines node st r h
  simp only [visit_arg_defaults, visitPack, visitStep] at h
  split at h
  · rename_i args vararg kwonly kwdef kwarg defaults
    split at h
    · rename_i ds kds
      split at h
      · cases h
      · rename_i ds1 st1 heq1
        split at h
        · cases h
        · rename_i kds1 st2 heq2
          injection h with h2
          subst h2
          exact (ihl lines ds st (ds1, st1) heq1).trans
            (ihol lines kds st1 (kds1, st2) heq2)
    · cases h
  · cases h

theorem frame_step_visit_annotations (n : Nat)
    (ihvo : ∀ lines o st r, visitOpt n lines o st = .ok r → Frame st r.2)
    (ihan : ∀ lines l st r, visit_annotations n lines l st = .ok r → Frame st r.2) :
    ∀ lines l st r, visit_annotations (n + 1) lines l st = .ok r → Frame st r.2 := by
  intro lines l st r h
  cases l with
  | nil =>
    simp only [visit_annotations, visitPack, visitStep] at h
    injection h with h2
    subst h2
    exact Frame.refl st
  | cons a rest =>
    simp only [visit_annotations, visitPack, visitStep] at h
    split at h
    · rename_i alineno acol aname ann
      split at h
      · cases h
      · rename_i ann1 st1 heq1
        split at h
        · cases h
        · rename_i rest1 st2 heq2
          injection h with h2
          subst h2
          exact (ihvo lines ann st (ann1, st1) heq1).trans
            (ihan lines rest st1 (rest1, st2) heq2)
    · cases h

theorem frame_step_visit_opt_annot (n : Nat)
    (ihvo : ∀ lines o st r, visitOpt n lines o st = .ok r → Frame st r.2) :
    ∀ lines o st r, visit_opt_annot (n + 1) lines o st = .ok r → Frame st r.2 := by
  intro lines o st r h
  cases o with
  | none =>
    simp only [visit_opt_annot, visitPack, visitStep] at h
    injection h with h2
    subst h2
    exact Frame.refl st
  | some a =>
    simp only [visit_opt_annot, visitPack, visitStep] at h
    split at h
    · rename_i alineno acol aname ann
      split at h
      · cases h
      · rename_i ann1 st1 heq
        injection h with h2
        subst h2
        exact ihvo lines ann st (ann1, st1) heq
    · cases h

theorem frame_step_visit_args (n : Nat)
    (ihvo : ∀ lines o st r, visitOpt n lines o st = .ok r → Frame st r.2)
    (ihan : ∀ lines l st r, visit_annotations n lines l st = .ok r → Frame st r.2)
    (ihoan : ∀ lines o st r, visit_opt_annot n lines o st = .ok r → Frame st r.2) :
    ∀ lines node ret st r, visit_args (n + 1) lines node ret st = .ok r → Frame st r.2 := by
  intro lines node ret st r h
  simp only [visit_args, visitPack, visitStep] at h
  split at h
  · rename_i args vararg kwonly kwdef kwarg defaults
    split at h
    · cases h
    · rename_i args1 st1 heq1
      split at h
      · cases h
      · rename_i kwonly1 st2 heq2
        split at h
        · cases h
        · rename_i vararg1 st3 heq3
          split at h
          · cases h
          · rename_i kwarg1 st4 heq4
            split at h
            · cases h
            · rename_i ret1 st5 heq5
              split at h
              · cases h
              · rename_i st6 heq6
                injection h with h2
                subst h2
                exact (((ihan lines args st (args1, st1) heq1).trans
                    (ihan lines kwonly st1 (kwonly1, st2) heq2)).trans
                  ((ihoan lines vararg st2 (vararg1, st3) heq3).trans
                    (ihoan lines kwarg st3 (kwarg1, st4) heq4))).trans
                  ((ihvo lines ret st4 (ret1, st5) heq5).trans
                    (mark_self_frame _ st5 st6 heq6))
  · cases h

theorem frame_step_visit_cfd (n : Nat)
    (ihl : ∀ lines l st r, visitList n lines l st = .ok r → Frame st r.2) :
    ∀ lines ic ln cl nm odl st st',
      visit_cfd (n + 1) lines ic ln cl nm odl st = .ok st' → Frame st st' := by
  intro lines ic ln cl nm odl st st' h
  simp only [visit_cfd, visitPack, visitStep] at h
  split at h
  · cases h
  · rename_i decorators
    split at h
    · cases h
    · rename_i dec1 st1 heq1
      split at h
      · cases h
      · rename_i lnx colx heq2
        injection h with h2
        subst h2
        exact (ihl lines decorators st (dec1, st1) heq1).trans
          ⟨rfl, ⟨_, rfl⟩, Or.inl rfl⟩

theorem frame_step_visit_block (n : Nat)
    (ihi : ∀ lines a st r, iter_node n lines a st = .ok r → Frame st r.2) :
    ∀ lines node st r, visit_block (n + 1) lines node st = .ok r → Frame st r.2 := by
  intro lines node st r h
  simp only [visit_block, visitPack, visitStep] at h
  split at h
  · cases h
  · rename_i current rest heqstack
    split at h
    · cases h
    · rename_i node1 st2 heq
      injection h with h2
      subst h2
      have hf := ihi lines node _ (node1, st2) heq
      obtain ⟨he, ⟨t, hn⟩, _⟩ := hf
      refine ⟨?_, ⟨t, ?_⟩, Or.inr ?_⟩
      · show st2.env.dropLast = st.env
        rw [he]
        show (st.env ++ [current]).dropLast = st.env
        simp
      · exact hn
      · show some st2.env.dropLast = some st.env
        rw [he]
        show some (st.env ++ [current]).dropLast = some st.env
        simp

theorem frame_step_iter_node (n : Nat)
    (ihv : ∀ lines a st r, visit n lines a st = .ok r → Frame st r.2)
    (ihvo : ∀ lines o st r, visitOpt n lines o st = .ok r → Frame st r.2)
    (ihl : ∀ lines l st r, visitList n lines l st = .ok r → Frame st r.2)
    (ihfl : ∀ lines l st r, visitFieldList n lines l st = .ok r → Frame st r.2)
    (ihfol : ∀ lines l st r, visitFieldOptList n lines l st = .ok r → Frame st r.2) :
    ∀ lines node st r, iter_node (n + 1) lines node st = .ok r → Frame st r.2 := by
  intro lines node st r h
  cases node with
  | Module body =>
    simp only [iter_node, visitPack, visitStep] at h
    split at h
    · cases h
    · rename_i body1 st1 heq1
      injection h with h2
      subst h2
      exact ihl lines body st (body1, st1) heq1
  | FunctionDef lineno col fname args body dlist ret =>
    simp only [iter_node, visitPack, visitStep] at h
    split at h
    · cases h
    · rename_i args1 st1 heq1
      split at h
      · cases h
      · rename_i body1 st2 heq2
        split at h
        · cases h
        · rename_i dlist1 st3 heq3
          split at h
          · cases h
          · rename_i ret1 st4 heq4
            injection h with h2
            subst h2
            exact ((ihv lines args st (args1, st1) heq1).trans
                (ihl lines body st1 (body1, st2) heq2)).trans
              ((ihfl lines dlist st2 (dlist1, st3) heq3).trans
                (ihvo lines ret st3 (ret1, st4) heq4))
  | AsyncFunctionDef lineno col fname args body dlist ret =>
    simp only [iter_node, visitPack, visitStep] at h
    split at h
    · cases h
    · rename_i args1 st1 heq1
      split at h
      · cases h
      · rename_i body1 st2 heq2
        split at h
        · cases h
        · rename_i dlist1 st3 heq3
          split at h
          · cases h
          · rename_i ret1 st4 heq4
            injection h with h2
            subst h2
            exact ((ihv lines args st (args1, st1) heq1).trans
                (ihl lines body st1 (body1, st2) heq2)).trans
              ((ihfl lines dlist st2 (dlist1, st3) heq3).trans
                (ihvo lines ret st3 (ret1, st4) heq4))
  | ClassDef lineno col cname bases kws body dlist =>
    simp only [iter_node, visitPack, visitStep] at h
    split at h
    · cases h
    · rename_i bases1 st1 heq1
      split at h
      · cases h
      · rename_i kws1 st2 heq2
        split at h
        · cases h
        · rename_i body1 st3 heq3
          split at h
          · cases h
          · rename_i dlist1 st4 heq4
            injection h with h2
            subst h2
            exact ((ihfl lines bases st (bases1, st1) heq1).trans
                (ihfl lines kws st1 (kws1, st2) heq2)).trans
              ((ihl lines body st2 (body1, st3) heq3).trans
                (ihfl lines dlist st3 (dlist1, st4) heq4))
  | Lambda args lbody =>
    simp only [iter_node, visitPack, visitStep] at h
    split at h
    · cases h
    · rename_i args1 st1 heq1
      split at h
      · cases h
      · rename_i lbody1 st2 heq2
        injection h with h2
        subst h2
        exact (ihv lines args st (args1, st1) heq1).trans
          (ihv lines lbody st1 (lbody1, st2) heq2)
  | ListComp elt generators =>
    simp only [iter_node, visitPack, visitStep] at h
    split at h
    · cases h
    · rename_i elt1 st1 heq1
      split at h
      · cases h
      · rename_i gens1 st2 heq2
        injection h with h2
        subst h2
        exact (ihv lines elt st (elt1, st1) heq1).trans
          (ihl lines generators st1 (gens1, st2) heq2)
  | comprehension target oiter ifs =>
    simp only [iter_node, visitPack, visitStep] at h
    split at h
    · cases h
    · rename_i target1 st1 heq1
      split at h
      · cases h
      · rename_i oiter1 st2 heq2
        split at h
        · cases h
        · rename_i ifs1 st3 heq3
          injection h with h2
          subst h2
          exact ((ihv lines target st (target1, st1) heq1).trans
              (ihvo lines oiter st1 (oiter1, st2) heq2)).trans
            (ihl lines ifs st2 (ifs1, st3) heq3)
  | Name lineno col id ctx tgt =>
    simp only [iter_node, visitPack, visitStep] at h
    split at h
    · cases h
    · rename_i ctx1 st1 heq1
      injection h with h2
      subst h2
      exact ihv lines ctx st (ctx1, st1) heq1
  | Attribute value attr ctx =>
    simp only [iter_node, visitPack, visitStep] at h
    split at h
    · cases h
    · rename_i value1 st1 heq1
      split at h
      · cases h
      · rename_i ctx1 st2 heq2
        injection h with h2
        subst h2
        exact (ihv lines value st (value1, st1) heq1).trans
          (ihv lines ctx st1 (ctx1, st2) heq2)
  | Num k =>
    simp only [iter_node, visitPack, visitStep] at h
    injection h with h2
    subst h2
    exact Frame.refl st
  | Store =>
    simp only [iter_node, visitPack, visitStep] at h
    injection h with h2
    subst h2
    exact Frame.refl st
  | Load =>
    simp only [iter_node, visitPack, visitStep] at h
    injection h with h2
    subst h2
    exact Frame.refl st
  | Try obody handlers oorelse finalbody =>
    simp only [iter_node, visitPack, visitStep] at h
    split at h
    · cases h
    · rename_i obody1 st1 heq1
      split at h
      · cases h
      · rename_i handlers1 st2 heq2
        split at h
        · cases h
        · rename_i oorelse1 st3 heq3
          split at h
          · cases h
          · rename_i finalbody1 st4 heq4
            injection h with h2
            subst h2
            exact ((ihfl lines obody st (obody1, st1) heq1).trans
                (ihl lines handlers st1 (handlers1, st2) heq2)).trans
              ((ihfl lines oorelse st2 (oorelse1, st3) heq3).trans
                (ihl lines finalbody st3 (finalbody1, st4) heq4))
  | ExceptHandler etype ename body =>
    simp only [iter_node, visitPack, visitStep] at h
    split at h
    · cases h
    · rename_i etype1 st1 heq1
      split at h
      · cases h
      · rename_i body1 st2 heq2
        injection h with h2
        subst h2
        exact (ihvo lines etype st (etype1, st1) heq1).trans
          (ihl lines body st1 (body1, st2) heq2)
  | Import lineno col inames =>
    simp only [iter_node, visitPack, visitStep] at h
    split at h
    · cases h
    · rename_i inames1 st1 heq1
      injection h with h2
      subst h2
      exact ihl lines inames st (inames1, st1) heq1
  | ImportFrom lineno col m inames lvl =>
    simp only [iter_node, visitPack, visitStep] at h
    split at h
    · cases h
    · rename_i inames1 st1 heq1
      injection h with h2
      subst h2
      exact ihl lines inames st (inames1, st1) heq1
  | «alias» aname asname =>
    simp only [iter_node, visitPack, visitStep] at h
    injection h with h2
    subst h2
    exact Frame.refl st
  | arg lineno col aname ann =>
    simp only [iter_node, visitPack, visitStep] at h
    split at h
    · cases h
    · rename_i ann1 st1 heq1
      injection h with h2
      subst h2
      exact ihvo lines ann st (ann1, st1) heq1
  | arguments args vararg kwonly kwdef kwarg defaults =>
    simp only [iter_node, visitPack, visitStep] at h
    split at h
    · cases h
    · rename_i args1 st1 heq1
      split at h
      · cases h
      · rename_i vararg1 st2 heq2
        split at h
        · cases h
        · rename_i kwonly1 st3 heq3
          split at h
          · cases h
          · rename_i kwdef1 st4 heq4
            split at h
            · cases h
            · rename_i kwarg1 st5 heq5
              split at h
              · cases h
              · rename_i defaults1 st6 heq6
                injection h with h2
                subst h2
                exact (((ihl lines args st (args1, st1) heq1).trans
                    (ihvo lines vararg st1 (vararg1, st2) heq2)).trans
                  ((ihl lines kwonly st2 (kwonly1, st3) heq3).trans
                    (ihfol lines kwdef st3 (kwdef1, st4) heq4))).trans
                  ((ihvo lines kwarg st4 (kwarg1, st5) heq5).trans
                    (ihfl lines defaults st5 (defaults1, st6) heq6))
  | Call func cargs kws =>
    simp only [iter_node, visitPack, visitStep] at h
    split at h
    · cases h
    · rename_i func1 st1 heq1
      split at h
      · cases h
      · rename_i cargs1 st2 heq2
        split at h
        · cases h
        · rename_i kws1 st3 heq3
          injection h with h2
          subst h2
          exact ((ihv lines func st (func1, st1) heq1).trans
              (ihl lines cargs st1 (cargs1, st2) heq2)).trans
            (ihl lines kws st2 (kws1, st3) heq3)
  | Assign targets value =>
    simp only [iter_node, visitPack, visitStep] at h
    split at h
    · cases h
    · rename_i targets1 st1 heq1
      split at h
      · cases h
      · rename_i value1 st2 heq2
        injection h with h2
        subst h2
        exact (ihl lines targets st (targets1, st1) heq1).trans
          (ihv lines value st1 (value1, st2) heq2)
  | Expr value =>
    simp only [iter_node, visitPack, visitStep] at h
    split at h
    · cases h
    · rename_i value1 st1 heq1
      injection h with h2
      subst h2
      exact ihv lines value st (value1, st1) heq1
  | Pass =>
    simp only [iter_node, visitPack, visitStep] at h
    injection h with h2
    subst h2
    exact Frame.refl st

/-- All traversal functions preserve the frame property: the lexical
chain is restored on exit, already-emitted Occurrences are never
altered or removed (the output grows only at its end), and the chain
snapshot tracks the restored chain. -/
theorem frame_mutual : ∀ fuel : Nat,
    (∀ lines node st r, visit fuel lines node st = .ok r → Frame st r.2) ∧
    (∀ lines onode st r, visitOpt fuel lines onode st = .ok r → Frame st r.2) ∧
    (∀ lines l st r, visitList fuel lines l st = .ok r → Frame st r.2) ∧
    (∀ lines l st r, visitOptList fuel lines l st = .ok r → Frame st r.2) ∧
    (∀ lines l st r, visitFieldList fuel lines l st = .ok r → Frame st r.2) ∧
    (∀ lines l st r, visitFieldOptList fuel lines l st = .ok r → Frame st r.2) ∧
    (∀ lines node st r, visit_try fuel lines node st = .ok r → Frame st r.2) ∧
    (∀ lines node st r, visit_comp fuel lines node st = .ok r → Frame st r.2) ∧
    (∀ lines obases okws st st',
      visit_class_meta fuel lines obases okws st = .ok st' → Frame st st') ∧
    (∀ lines node st r, visit_arg_defaults fuel lines node st = .ok r → Frame st r.2) ∧
    (∀ lines l st r, visit_annotations fuel lines l st = .ok r → Frame st r.2) ∧
    (∀ lines o st r, visit_opt_annot fuel lines o st = .ok r → Frame st r.2) ∧
    (∀ lines node ret st r, visit_args fuel lines node ret st = .ok r → Frame st r.2) ∧
    (∀ lines ic ln cl nm odl st st',
      visit_cfd fuel lines ic ln cl nm odl st = .ok st' → Frame st st') ∧
    (∀ lines node st r, visit_block fuel lines node st = .ok r → Frame st r.2) ∧
    (∀ lines node st r, iter_node fuel lines node st = .ok r → Frame st r.2) := by
  intro fuel
  induction fuel with
  | zero =>
    refine ⟨?_, ?_, ?_, ?_, ?_, ?_, ?_, ?_, ?_, ?_, ?_, ?_, ?_, ?_, ?_, ?_⟩
    all_goals intros
    all_goals rename_i h
    all_goals simp only [visit, visitOpt, visitList, visitOptList, visitFieldList,
      visitFieldOptList, visit_try, visit_comp, visit_class_meta,
      visit_arg_defaults, visit_annotations, visit_opt_annot, visit_args,
      visit_cfd, visit_block, iter_node, visitPack, visitNone] at h
    all_goals cases h
  | succ n ih =>
    obtain ⟨ihv, ihvo, ihl, ihol, ihfl, ihfol, iht, ihc, ihm, ihad, ihan,
      ihoan, ihag, ihcfd, ihb, ihi⟩ := ih
    exact ⟨frame_step_visit n ihv iht ihc ihm ihad ihag ihcfd ihb ihi,
      frame_step_visitOpt n ihv,
      frame_step_visitList n ihv ihl,
      frame_step_visitOptList n ihvo ihol,
      frame_step_visitFieldList n ihl,
      frame_step_visitFieldOptList n ihol,
      frame_step_visit_try n ihl,
      frame_step_visit_comp n ihv,
      frame_step_visit_class_meta n ihl,
      frame_step_visit_arg_defaults n ihl ihol,
      frame_step_visit_annotations n ihvo ihan,
      frame_step_visit_opt_annot n ihvo,
      frame_step_visit_args n ihvo ihan ihoan,
      frame_step_visit_cfd n ihl,
      frame_step_visit_block n ihi,
      frame_step_iter_node n ihv ihvo ihl ihfl ihfol⟩

set_option maxHeartbeats 4000000

/-- Claim C1 (corrected), counterexample: the pass is claimed not to
mutate its inputs, but on the C1 input the syntax tree returned by the
traversal is not the syntax tree that was passed in (the source
deletes visited child fields and writes `self_target` onto the base
identifier). -/
theorem c1_counterexample :
    Except.map Prod.fst (run_visitor 64 c1_lines c1_t0 c1_ast) ≠ Except.ok c1_ast := by
  intro hc
  have h1 : Except.map Prod.fst (run_visitor 64 c1_lines c1_t0 c1_ast)
      = Except.ok c1_ast_out := rfl
  rw [h1] at hc
  injection hc with hc
  simp [c1_ast_out, c1_ast, c1_xnode] at hc

/-- Claim C1 (amended): the pass mutates the syntax tree — it deletes
the already-visited child fields (argument defaults and keyword
defaults, parameter and return annotations, decorator lists, class
bases and keywords, and, for other inputs, a try statement body and
else branch and a comprehension first iterable) and writes a
`self_target` back-reference on the base identifier of a recognized
self attribute access; the scope tree receives exactly the
`self_param` writes (here one, on the scope of `f`); the line sequence
is a read-only argument and has no output position at all.  The run on
the C1 input produces exactly the mutated tree `c1_ast_out` and final
state shown. -/
theorem c1_theorem :
    run_visitor 64 c1_lines c1_t0 c1_ast
      = .ok (c1_ast_out, ⟨[], [], some [], c1_names_out, [(2, "self")]⟩) := rfl

/-- Claim C2 (code bug): `_mark_self` runs before the decorators are
visited, so with a scope-introducing decorator the top of the pending
scope stack is the decorator lambda scope, not the scope of `m`: the
`self_param` write lands on `c2_tlam` (tid 2) and `m` own scope
`c2_tm` stays unmarked, although the first positional parameter is
`self` and the immediately enclosing scope is the class. -/
theorem c2_theorem :
    (run_visitor 64 c2_lines c2_t0 c2_ast).map (fun p => (p.2.names, p.2.selfParams))
        = .ok (c2_names_out, [(c2_tlam.tid, "self")]) ∧
      lookupSelfParam [(c2_tlam.tid, "self")] c2_tm = none ∧
      lookupSelfParam [(c2_tlam.tid, "self")] c2_tlam = some "self" :=
  ⟨rfl, rfl, rfl⟩

/-- Claim C3 (corrected), counterexample: the claim says the guess
accounts for an `async ` prefix and is accepted only when verifiably
correct, so that the emitted Occurrence always carries the exact
identifier position.  On `async def c(): pass` the unadjusted guess
column 4 (inside the word `async`) slices to `"c"`, equal to the name,
and is accepted: the pass emits the definition name at column 4 while
the actual identifier token sits at column 10. -/
theorem c3_counterexample :
    visitor 64 c3a_lines c3a_t0 c3a_ast
        = .ok [.mk "c" 1 4 (some [c3a_t0]) false none] ∧
      Option.map (fun p => (p.1.string, p.1.row, p.1.col))
        (Option.bind (advance (tokenize_lines c3a_lines) (.strs ["class", "def"]) .NAME)
          (fun p => advance p.2 .any .NAME)) = some ("c", 1, 10) ∧
      (4 : Nat) ≠ 10 :=
  ⟨rfl, rfl, by decide⟩

/-- Claim C3 (amended): the guess is the reported column plus 6 for
`class` and 4 otherwise, with no adjustment for an `async ` prefix; it
is accepted exactly when the definition has no decorators and the
guessed slice equals the name — which is usually, but not always,
the exact identifier position (the counterexample accepts a wrong
column).  Otherwise a token scan from the statement line finds the
identifier after the `class`/`def` keyword, giving the exact position
for decorated multi-line definitions and for async definitions whose
slice check fails. -/
theorem c3_theorem :
    visitor 64 c3a_lines c3a_t0 c3a_ast
        = .ok [.mk "c" 1 4 (some [c3a_t0]) false none] ∧
      visitor 64 c3c_lines c3c_t0 c3c_ast
        = .ok [.mk "foo" 1 10 (some [c3c_t0]) false none] ∧
      visitor 64 c3b_lines c3b_t0 c3b_ast
        = .ok [
          .mk "d1" 1 1 (some [c3b_t0]) false none,
          .mk "d2" 2 1 (some [c3b_t0]) false none,
          .mk "foo" 3 4 (some [c3b_t0]) false none,
          .mk "a" 3 8 (some [c3b_t0, .mk 1 "function" []]) false none,
          .mk "b" 4 8 (some [c3b_t0, .mk 1 "function" []]) false none ] :=
  ⟨rfl, rfl, rfl⟩

/-- Claim C4 (confirmed): the run emits the attribute Occurrence `x`
with `is_attr` true at line 3, column 13 = 8 + 4 + 1, with chain
`[module, C]` (the chain `[c4_t0, c4_t1, c4_t2]` current inside `foo`
with its innermost entry removed), and a plain Occurrence `self` whose
target references that attribute Occurrence. -/
theorem c4_theorem :
    visitor 64 c4_lines c4_t0 c4_ast = .ok [
        .mk "C" 1 6 (some [c4_t0]) false none,
        .mk "foo" 2 8 (some [c4_t0, c4_t1]) false none,
        .mk "self" 2 12 (some [c4_t0, c4_t1, c4_t2]) false none,
        c4_xnode,
        .mk "self" 3 8 (some [c4_t0, c4_t1, c4_t2]) false (some c4_xnode) ] ∧
      c4_xnode.env = some [c4_t0, c4_t1] ∧ c4_xnode.is_attr = true :=
  ⟨rfl, rfl, rfl⟩

/-- Claim C5 (confirmed): `import a, b as c` contributes exactly two
Occurrences — `a` at its scanned column 7 and `c` at the column 15 of
the token after the `as` keyword, not at the column 10 of the token
`b` — and `from x import *` contributes none (the output ends after
the two entries). -/
theorem c5_theorem :
    visitor 64 c5_lines c5_t0 c5_ast = .ok [
        .mk "a" 1 7 (some [c5_t0]) false none,
        .mk "c" 1 15 (some [c5_t0]) false none ] ∧
      Option.map (fun p => (p.1.row, p.1.col))
        (advance (tokenize_lines c5_lines) (.str "b") .NAME) = some (1, 10) ∧
      (15 : Nat) ≠ 10 :=
  ⟨rfl, rfl, by decide⟩

/-- Claim C6 (confirmed): the call target `g` of the default value is
emitted with the enclosing chain `[module]`, while the parameters `a`
and `b` are emitted with the chain `[module, f]` of the function
block. -/
theorem c6_theorem :
    visitor 64 c6_lines c6_t0 c6_ast = .ok [
      .mk "g" 1 11 (some [c6_t0]) false none,
      .mk "f" 1 4 (some [c6_t0]) false none,
      .mk "a" 1 6 (some [c6_t0, c6_t1]) false none,
      .mk "b" 1 9 (some [c6_t0, c6_t1]) false none ] := rfl

/-- Claim C7 (corrected), counterexample: the emitted order on the try
construct is protected body, then else branch, then except handlers
and finally body — the else-branch occurrence at (6, 4) is emitted
before the handler occurrences at (3, 7) and (4, 4), a deviation from
source order that is not one of the enclosing-scope exceptions
(defaults, decorators, bases and keywords, comprehension iterable). -/
theorem c7_counterexample :
    (visitor 64 c7_lines c7_t0 c7_ast).map
        (fun ns => ns.map fun nd => (nd.name, nd.lineno, nd.col))
        = .ok [("a", 2, 4), ("c", 6, 4), ("E", 3, 7), ("b", 4, 4)] ∧
      ¬ posLE (6, 4) (3, 7) :=
  ⟨rfl, by intro hc; rcases hc with hl | ⟨hl, _⟩ <;> omega⟩

/-- Claim C7 (amended): for an exception-handling construct the
protected body is visited first and the else branch second, both
excluded from the later generic field pass; the handlers and finally
body follow in the generic pass, so the emission order is body, else
branch, handlers, finally body — each child subtree visited exactly
once (every name of the input appears exactly once in the output). -/
theorem c7_theorem :
    visitor 64 c7_lines c7_t0 c7_ast = .ok [
      .mk "a" 2 4 (some [c7_t0]) false none,
      .mk "c" 6 4 (some [c7_t0]) false none,
      .mk "E" 3 7 (some [c7_t0]) false none,
      .mk "b" 4 4 (some [c7_t0]) false none ] := rfl

/-- Claim C8 (confirmed): entering a block pops the pending scope
stack, and whenever the stack is empty the pop is the IndexError of
`list.pop` — the block-entry protocol returns an error for every node
and state with an empty pending stack, and on the concrete mismatched
input the whole pass aborts with that error surfaced to the caller
instead of guessing or skipping. -/
theorem c8_theorem :
    (∀ (fuel : Nat) (lines : List String) (node : Ast) (st : St),
        st.table_stack = [] →
        visit_block (fuel + 1) lines node st = .error .indexError) ∧
      visitor 64 [] c8_t0 c8_ast = .error .indexError := by
  constructor
  · intro fuel lines node st hstack
    simp only [visit_block, visitPack, visitStep]
    rw [hstack]
  · rfl

/-- Claim C8 witness: the block-entry protocol applied at a concrete
state with an empty pending stack. -/
theorem c8_theorem_witness :
    visit_block 1 [] .Pass ⟨[], [], none, [], []⟩ = .error .indexError :=
  c8_theorem.1 0 [] .Pass ⟨[], [], none, [], []⟩ rfl

/-- Claim C9 (confirmed): every Occurrence chain is a snapshot — for
every successful traversal step the states before and after are
related by `Frame`: the previously emitted Occurrence list is a prefix
of the final one (so later pushes and pops never retroactively alter
an already-emitted Occurrence or its chain), the lexical chain is
restored on exit, and the chain snapshot equals the restored chain
afterwards; and on the concrete two-sibling input both sibling
occurrences carry content-equal, equal-length chains. -/
theorem c9_theorem :
    (∀ (fuel : Nat) (lines : List String) (node : Ast) (st : St) (r : Ast × St),
        visit fuel lines node st = .ok r → Frame st r.2) ∧
      visitor 64 c9_lines c9_t0 c9_ast = .ok [
        .mk "a" 1 0 (some [c9_t0]) false none,
        .mk "b" 1 3 (some [c9_t0]) false none ] :=
  ⟨fun fuel lines node st r h => (frame_mutual fuel).1 lines node st r h, rfl⟩

/-- Claim C9 witness: the frame property instantiated on a concrete
run. -/
theorem c9_theorem_witness :
    Frame (init_state (Table.mk 0 "module" [])) (init_state (Table.mk 0 "module" [])) :=
  c9_theorem.1 2 [] .Pass (init_state (Table.mk 0 "module" []))
    (.Pass, init_state (Table.mk 0 "module" [])) rfl

/-- Claim C10 (confirmed): `_mark_self` on a parameter list with no
positional parameters returns the state unchanged without an error
(the IndexError of `args[0]` is caught in the source); and recursing
into an absent child — a `None` annotation or return annotation, a
`None` entry among keyword-only defaults, or a `None` vararg or kwarg
slot — is a no-op that emits nothing and raises no error. -/
theorem c10_theorem :
    (∀ (st : St) (vararg kwarg : Option Ast) (kwonly : List Ast)
        (kwdef : Option (List (Option Ast))) (defaults : Option (List Ast)),
        mark_self (.arguments [] vararg kwonly kwdef kwarg defaults) st = .ok st) ∧
      (∀ (fuel : Nat) (lines : List String) (st : St),
        visitOpt (fuel + 1) lines none st = .ok (none, st)) ∧
      (∀ (fuel : Nat) (lines : List String) (st : St),
        visit_opt_annot (fuel + 1) lines none st = .ok (none, st)) :=
  ⟨fun _ _ _ _ _ _ => rfl, fun _ _ _ => rfl, fun _ _ _ => rfl⟩

